import Mathlib

/-
Verification of the OpenPBS postgres data-store facade (db_postgres.c) and
the schema migration controller (svr_migrate_data.c), as a shallow embedding.

Conventions of the embedding:
 - C strings are List Char (a C string cannot contain NUL, so no terminator
   is modelled).
 - Backend (libpq) behaviour is passed in as explicit data or oracle
   functions: a PGresult is a record of the fields the code reads, the
   per-kind row fetch is a function from the current row index to its
   return code, and so on.
 - int return codes stay Int.
 - The per-kind find operations (pbs_db_find_sched and friends) and the
   descriptor grammar of the backend are not part of the excerpt; they are
   modelled from the spec and marked as such in their doc comments.
-/

set_option maxRecDepth 10000

/-! Characters used by the escaping logic, named to keep the source text
free of quote-heavy literals. -/

def squote : Char := Char.ofNat 39

def bslash : Char := Char.ofNat 92

/-! ## Query cursor state machine (db_postgres.c) -/

/-- State of a query cursor: db_query_state_t. The result-set handle and
the callback pointer carry no information for the control flow modelled
here, so only count and row are kept. -/
structure db_query_state_t where
  count : Int
  row : Int
deriving DecidableEq, Repr

/-- db_initialize_state: fresh state before find runs (count = -1, row = -1). -/
def db_initialize_state : db_query_state_t := ⟨-1, -1⟩

/-- db_cursor_next. The fetch oracle gives the return code of the per-kind
pbs_db_next_obj at a given current-row index. Returns (return code, new
state, number of backend fetch invocations made by this call). -/
def db_cursor_next (fetch : Int → Int) (s : db_query_state_t) : Int × db_query_state_t × Nat :=
  if s.row < s.count then (fetch s.row, ⟨s.count, s.row + 1⟩, 1)
  else (1, s, 0)

/-- The while loop of pbs_db_search: repeated db_cursor_next until it stops
returning 0, counting accepted rows (query_cb sets refreshed, modelled by
the accept oracle on the row index). Returns (totcount, backend fetch
invocations). -/
def search_loop (fetch : Int → Int) (accept : Int → Bool) (s : db_query_state_t) : Nat × Nat :=
  if h : s.row < s.count then
    if fetch s.row = 0 then
      let p := search_loop fetch accept ⟨s.count, s.row + 1⟩
      (p.1 + (if accept s.row then 1 else 0), p.2 + 1)
    else (0, 1)
  else (0, 0)
termination_by (s.count - s.row).toNat
decreasing_by
  simp_wf
  omega

/-- Result of one pbs_db_search call, with the resource bookkeeping the
spec talks about: whether a cursor state was allocated and whether it was
destroyed before returning. -/
structure SearchOutcome where
  retval : Int
  fetchCalls : Nat
  created : Bool
  destroyed : Bool
deriving DecidableEq, Repr

/-- pbs_db_search. allocOk models the malloc inside db_initialize_state;
find models the dispatched pbs_db_find_obj (it receives the initialized
state and returns its code and the state it leaves behind). -/
def pbs_db_search (allocOk : Bool) (find : db_query_state_t → Int × db_query_state_t)
    (fetch : Int → Int) (accept : Int → Bool) : SearchOutcome :=
  if allocOk = false then ⟨-1, 0, false, false⟩
  else
    let fr := find db_initialize_state
    if fr.1 = -1 then ⟨-1, 0, true, true⟩
    else
      let p := search_loop fetch accept fr.2
      ⟨(p.1 : Int), p.2, true, true⟩

/-- Modelled from the spec: the per-kind find operation (pbs_db_find_sched
and friends, reachable only through the dispatch table and not present in
src/). Per section 4.5 it executes the find query and records the row
count, moving the cursor out of Unpositioned (row = -1) to the first row,
and per the uniform result convention it returns 1 when the statement
returned no rows, in which case the result set is released at once and the
state is left untouched. -/
def pbs_db_find_obj_spec (n : Nat) (s : db_query_state_t) : Int × db_query_state_t :=
  if n = 0 then (1, s) else (0, ⟨(n : Int), 0⟩)

/-- Number of accepted rows among the k row indices starting at start. -/
def countAccepted (accept : Int → Bool) (start : Int) : Nat → Nat
  | 0 => 0
  | k + 1 => (if accept start then 1 else 0) + countAccepted accept (start + 1) k

/-! ## Connection failure classification (db_postgres.c) -/

/-- PBS DB layer error codes (pbs_db.h). -/
inductive PbsDbErr
  | PBS_DB_CONNREFUSED
  | PBS_DB_AUTH_FAILED
  | PBS_DB_STILL_STARTING
  | PBS_DB_CONNFAILED
  | PBS_DB_NOMEM
  | PBS_DB_ERR
deriving DecidableEq, Repr

/-- libpq connection status as read through PQstatus. -/
inductive PGConnStatus
  | CONNECTION_OK
  | CONNECTION_BAD
deriving DecidableEq, Repr

/-- The two facts is_conn_error reads from a live PGconn: its status and
the text PQerrorMessage returns. -/
structure PGconnM where
  status : PGConnStatus
  errorMessage : List Char
deriving DecidableEq, Repr

def isNL (c : Char) : Bool := c = '\r' || c = '\n'

/-- The trailing-newline suppression loop of db_set_error. -/
def trimNewlines (s : List Char) : List Char := (s.reverse.dropWhile isNL).reverse

def sFailedSep : List Char := " failed: ".toList

def fncConnection : List Char := "Connection:".toList

/-- db_set_error: the cached message it builds, following the format
string with the trailing newlines of the backend message suppressed
first. -/
def db_set_error_msg (fnc msg pq diag : List Char) : List Char :=
  fnc ++ (' ' :: msg) ++ sFailedSep ++ trimNewlines pq ++ (' ' :: diag)

/-- The constant text db_set_error wraps around the backend message on the
is_conn_error path (fnc = "Connection:", msg = "", diag = ""). -/
def connWrapper : List Char := fncConnection ++ (' ' :: []) ++ sFailedSep

/-- C strstr as a Bool: does hay contain needle. -/
def strstr (hay needle : List Char) : Bool := decide (needle <:+: hay)

def needleConnRefused : List Char := "Connection refused".toList

def needleNoSuchFile : List Char := "No such file or directory".toList

def needleAuth : List Char := "authentication".toList

def needleStarting : List Char := "database system is starting up".toList

/-- is_conn_error. Returns (return value, failcode written), where none
means the failcode out-parameter was not written. -/
def is_conn_error (conn : Option PGconnM) : Int × Option PbsDbErr :=
  match conn with
  | some c =>
    if c.status = PGConnStatus.CONNECTION_BAD then
      let cache := db_set_error_msg fncConnection [] c.errorMessage []
      if strstr cache needleConnRefused || strstr cache needleNoSuchFile then
        (1, some PbsDbErr.PBS_DB_CONNREFUSED)
      else if strstr cache needleAuth then (1, some PbsDbErr.PBS_DB_AUTH_FAILED)
      else if strstr cache needleStarting then (1, some PbsDbErr.PBS_DB_STILL_STARTING)
      else (1, some PbsDbErr.PBS_DB_CONNFAILED)
    else (0, none)
  | none => (1, some PbsDbErr.PBS_DB_CONNFAILED)

/-! ## Schema migration controller (svr_migrate_data.c) -/

/-- Environment of one svr_migrate_data run: the stored schema version
(none when pbs_db_get_schema_version fails), the return codes of the two
external steps, and the dirty flags of the node list (nd_modified,
abstracted to a Bool per node). -/
structure MigrateEnv where
  schema : Option (Int × Int)
  pbsd_init_rc : Int
  save_nodes_rc : Int
  nodes : List Bool
deriving DecidableEq, Repr

/-- Observable outcome of svr_migrate_data: return code, whether the warm
recovery load (pbsd_init RECOV_WARM) ran, the node dirty flags afterwards,
and whether the bulk node save (save_nodes_db) was invoked. -/
structure MigrateOut where
  ret : Int
  warmLoaded : Bool
  nodes : List Bool
  saveCalled : Bool
deriving DecidableEq, Repr

/-- svr_migrate_data. -/
def svr_migrate_data (env : MigrateEnv) : MigrateOut :=
  match env.schema with
  | none => ⟨-1, false, env.nodes, false⟩
  | some (mj, mn) =>
    if mj = 1 ∧ mn = 0 then
      if env.pbsd_init_rc ≠ 0 then ⟨-1, true, env.nodes, false⟩
      else if env.save_nodes_rc ≠ 0 then ⟨-1, true, env.nodes.map (fun _ => true), true⟩
      else ⟨0, true, env.nodes.map (fun _ => true), true⟩
    else if mj = 3 ∧ mn = 0 then ⟨0, false, env.nodes, false⟩
    else ⟨-1, false, env.nodes, false⟩

/-! ## Statement execution protocol (db_postgres.c) -/

/-- libpq result status values the code distinguishes. -/
inductive ExecStatus
  | PGRES_COMMAND_OK
  | PGRES_TUPLES_OK
  | PGRES_FATAL_ERROR
deriving DecidableEq, Repr

/-- The fields of a PGresult the execution primitives read: the status,
PQcmdTuples (none models a NULL pointer), and PQntuples. -/
structure PGresultM where
  status : ExecStatus
  cmdTuples : Option (List Char)
  ntuples : Int
deriving DecidableEq, Repr

/-- C isspace for the default locale. -/
def isCSpace (c : Char) : Bool :=
  c = ' ' || c = '\t' || c = '\n' || c = '\r' || c = Char.ofNat 11 || c = Char.ofNat 12

/-- Value of the longest digit run at the front of s. -/
def digitsVal (s : List Char) : Int :=
  (s.takeWhile (fun c => c.isDigit)).foldl (fun a c => a * 10 + ((c.toNat : Int) - 48)) 0

/-- strtol(s, NULL, 10), as used on PQcmdTuples output (whose values are
small, so overflow clamping is not modelled). -/
def strtol10 (s : List Char) : Int :=
  match s.dropWhile isCSpace with
  | '-' :: rest => - digitsVal rest
  | '+' :: rest => digitsVal rest
  | rest => digitsVal rest

/-- The rows_affected == NULL || strtol(rows_affected, NULL, 10) <= 0 test
shared by db_cmd and db_execute_str. -/
def cmdTuplesLeZero (t : Option (List Char)) : Bool :=
  match t with
  | none => true
  | some ra => decide (strtol10 ra ≤ 0)

/-- db_cmd: execute a prepared DML statement, judging the backend response
res. -/
def db_cmd (res : PGresultM) : Int :=
  if res.status ≠ ExecStatus.PGRES_COMMAND_OK then -1
  else if cmdTuplesLeZero res.cmdTuples then 1
  else 0

/-- db_execute_str: execute an ad hoc SQL string, judging the backend
response res. -/
def db_execute_str (res : PGresultM) : Int :=
  if res.status ≠ ExecStatus.PGRES_COMMAND_OK ∧ res.status ≠ ExecStatus.PGRES_TUPLES_OK then -1
  else if cmdTuplesLeZero res.cmdTuples ∧ res.ntuples ≤ 0 then 1
  else 0

/-! ## Password escaping and the connection-string builder (db_postgres.c) -/

/-- The copy loop of escape_passwd: pos is the current output offset
(p - dest), len the destination capacity. -/
def escape_passwd_go : List Char → Int → Int → List Char
  | [], _, _ => []
  | c :: src, pos, len =>
    if pos < len then
      if c = squote ∨ c = bslash then bslash :: c :: escape_passwd_go src (pos + 2) len
      else c :: escape_passwd_go src (pos + 1) len
    else []

/-- escape_passwd: the contents of dest after the call, given src and the
destination capacity len. -/
def escape_passwd (src : List Char) (len : Int) : List Char := escape_passwd_go src 0 len

/-- The escaping transformation in the words of the spec: backslash and
single quote are each prefixed with a backslash, all other bytes pass
through unchanged. Stated separately from escape_passwd so the two can be
compared. -/
def escape_passwd_spec : List Char → List Char
  | [] => []
  | c :: rest => (if c = squote ∨ c = bslash then [bslash, c] else [c]) ++ escape_passwd_spec rest

/-- Un-escaping: drop each escape backslash, keeping the byte it
protects. -/
def unescape : List Char → List Char
  | [] => []
  | c :: rest =>
    if c = bslash then
      match rest with
      | [] => []
      | c2 :: rest2 => c2 :: unescape rest2
    else c :: unescape rest

/-- Decimal digits of n (no sign), most significant first. -/
def natDec (n : Nat) : List Char :=
  if h : n < 10 then [Char.ofNat (48 + n)]
  else natDec (n / 10) ++ [Char.ofNat (48 + n % 10)]
decreasing_by
  exact Nat.div_lt_self (by omega) (by omega)

/-- sprintf %d. -/
def intDec (i : Int) : List Char :=
  if i < 0 then '-' :: natDec (- i).toNat else natDec i.toNat

/-- inet_ntoa applied to htonl of a host-order address a: the dotted
decimal text of the low 32 bits of a, most significant byte first. -/
def inet_ntoa_dotted (a : Nat) : List Char :=
  natDec (a / 16777216 % 256) ++ '.' :: natDec (a / 65536 % 256)
    ++ '.' :: natDec (a / 256 % 256) ++ '.' :: natDec (a % 256)

def IPV4_STR_LEN : Nat := 15

/-- PBS_DATA_SERVICE_STORE_NAME: the database name constant from pbs_db.h
(header not part of the excerpt). -/
def PBS_DATA_SERVICE_STORE_NAME : List Char := "pbs_datastore".toList

/-- template1 of get_db_connect_string, filled in:
hostaddr = _ port = _ dbname = _ user = _ password = _ connect_timeout = _. -/
def template1_fill (ip portS u pq timeoutS : List Char) : List Char :=
  "hostaddr = '".toList ++ (ip ++ ("' port = ".toList ++ (portS ++ (" dbname = '".toList
    ++ (PBS_DATA_SERVICE_STORE_NAME ++ ("' user = '".toList ++ (u ++ ("' password = '".toList
    ++ (pq ++ ("' connect_timeout = ".toList ++ timeoutS))))))))))

/-- template2 of get_db_connect_string (no hostaddr), filled in. -/
def template2_fill (portS u pq timeoutS : List Char) : List Char :=
  "port = ".toList ++ (portS ++ (" dbname = '".toList
    ++ (PBS_DATA_SERVICE_STORE_NAME ++ ("' user = '".toList ++ (u ++ ("' password = '".toList
    ++ (pq ++ ("' connect_timeout = ".toList ++ timeoutS))))))))

/-- Environment of get_db_connect_string: outcome of
pbs_get_dataservice_usr, outcome of get_dataservice_password, the
configured data service port, and the resolver (get_hostaddr, returning 0
on failure). -/
structure ConnStrEnv where
  usr : Option (List Char)
  passwd : Option (List Char)
  port : Int
  resolve : List Char → Nat

/-- get_db_connect_string. Allocation failures (PBS_DB_NOMEM paths) are
not modelled; everything else follows the source, including the
2 * strlen + 1 escape buffer size and the IPV4_STR_LEN strncpy bound. -/
def get_db_connect_string (env : ConnStrEnv) (host : Option (List Char)) (timeout : Int) :
    Except PbsDbErr (List Char) :=
  match env.usr with
  | none => Except.error PbsDbErr.PBS_DB_AUTH_FAILED
  | some u =>
    match env.passwd with
    | none => Except.error PbsDbErr.PBS_DB_AUTH_FAILED
    | some p =>
      let pquoted := escape_passwd p (2 * (p.length : Int) + 1)
      match host with
      | none => Except.ok (template2_fill (intDec env.port) u pquoted (intDec timeout))
      | some h =>
        if env.resolve h = 0 then Except.error PbsDbErr.PBS_DB_CONNFAILED
        else
          Except.ok (template1_fill
            ((inet_ntoa_dotted (env.resolve h % 4294967296)).take IPV4_STR_LEN)
            (intDec env.port) u pquoted (intDec timeout))

/-! ## The descriptor grammar (modelled from the spec, section 6):
space-separated key = value fields, values either bare tokens or single
quoted with backslash escapes. -/

def notSpace (c : Char) : Bool := c != ' '

/-- Modelled from the spec: parse the remainder of a quoted value (the
opening quote already consumed). Returns the unescaped value and the text
after the closing quote. -/
def parseQuoted : List Char → Option (List Char × List Char)
  | [] => none
  | c :: rest =>
    if c = bslash then
      match rest with
      | [] => none
      | c2 :: rest2 => (parseQuoted rest2).map (fun pr => (c2 :: pr.1, pr.2))
    else if c = squote then some ([], rest)
    else (parseQuoted rest).map (fun pr => (c :: pr.1, pr.2))

/-- Modelled from the spec: parse one field value, quoted or bare. -/
def parseVal (v : List Char) : Option (List Char × List Char) :=
  match v with
  | [] => some ([], [])
  | c :: v2 =>
    if c = squote then parseQuoted v2
    else some ((c :: v2).takeWhile notSpace, (c :: v2).dropWhile notSpace)

/-- Modelled from the spec: parse one key = value field, returning the
field and the unconsumed text. -/
def parseKV (l : List Char) : Option ((List Char × List Char) × List Char) :=
  if l.takeWhile notSpace = [] then none
  else
    match l.dropWhile notSpace with
    | ' ' :: '=' :: ' ' :: v => (parseVal v).map (fun pr => ((l.takeWhile notSpace, pr.1), pr.2))
    | _ => none

/-- Modelled from the spec: parse a space-separated field list; the fuel
bounds the number of fields. -/
def parseFieldsGo : Nat → List Char → Option (List (List Char × List Char))
  | 0, _ => none
  | n + 1, l =>
    match parseKV l with
    | none => none
    | some kvr =>
      match kvr.2 with
      | [] => some [kvr.1]
      | ' ' :: rest => (parseFieldsGo n rest).map (fun fs => kvr.1 :: fs)
      | _ => none

/-- Modelled from the spec: parse a whole descriptor into its fields
(each successful field consumes at least one character, so the length is
always enough fuel). -/
def parseFields (l : List Char) : Option (List (List Char × List Char)) :=
  parseFieldsGo l.length l

/-- A well-formed numeric IPv4 literal: four decimal byte values joined
by dots. -/
def isIPv4Lit (s : List Char) : Prop :=
  ∃ a b c d : Nat, a < 256 ∧ b < 256 ∧ c < 256 ∧ d < 256 ∧
    s = natDec a ++ '.' :: natDec b ++ '.' :: natDec c ++ '.' :: natDec d

/-! ## Cursor lemmas -/

theorem search_loop_stop (fetch : Int → Int) (accept : Int → Bool) (s : db_query_state_t)
    (h : ¬ s.row < s.count) : search_loop fetch accept s = (0, 0) := by
  rw [search_loop]
  exact dif_neg h

theorem search_loop_err (fetch : Int → Int) (accept : Int → Bool) (s : db_query_state_t)
    (h : s.row < s.count) (hf : fetch s.row ≠ 0) : search_loop fetch accept s = (0, 1) := by
  rw [search_loop, dif_pos h, if_neg hf]

theorem search_loop_step (fetch : Int → Int) (accept : Int → Bool) (s : db_query_state_t)
    (h : s.row < s.count) (hf : fetch s.row = 0) :
    search_loop fetch accept s =
      ((search_loop fetch accept ⟨s.count, s.row + 1⟩).1 + (if accept s.row then 1 else 0),
        (search_loop fetch accept ⟨s.count, s.row + 1⟩).2 + 1) := by
  rw [search_loop, dif_pos h, if_pos hf]

/-- Every step of the while loop of pbs_db_search is one db_cursor_next
call: the loop recurses exactly when the cursor call returns 0, adds its
backend fetch count, and counts the row when the callback accepts it. -/
theorem search_loop_eq_cursor_next (fetch : Int → Int) (accept : Int → Bool)
    (s : db_query_state_t) :
    search_loop fetch accept s =
      (if (db_cursor_next fetch s).1 = 0 then
        ((search_loop fetch accept (db_cursor_next fetch s).2.1).1 +
            (if accept s.row then 1 else 0),
          (search_loop fetch accept (db_cursor_next fetch s).2.1).2 +
            (db_cursor_next fetch s).2.2)
      else (0, (db_cursor_next fetch s).2.2)) := by
  unfold db_cursor_next
  by_cases h : s.row < s.count
  · rw [if_pos h]
    by_cases hf : fetch s.row = 0
    · rw [search_loop_step fetch accept s h hf]
      simp [hf]
    · rw [search_loop_err fetch accept s h hf]
      simp [hf]
  · rw [if_neg h, search_loop_stop fetch accept s h]
    simp

/-- Draining a cursor whose fetches all succeed: starting k rows before
count, the loop makes exactly k fetch calls and counts the accepted
rows. -/
theorem search_loop_drain_success (k : Nat) (fetch : Int → Int) (accept : Int → Bool) :
    ∀ r : Int, (∀ j, fetch j = 0) → ∀ cnt : Int, r + k = cnt →
      search_loop fetch accept ⟨cnt, r⟩ = (countAccepted accept r k, k) := by
  induction k with
  | zero =>
    intro r _ cnt hcnt
    rw [search_loop_stop _ _ _ (by simp only; omega)]
    rfl
  | succ k ih =>
    intro r hz cnt hcnt
    have hr : (⟨cnt, r⟩ : db_query_state_t).row < (⟨cnt, r⟩ : db_query_state_t).count := by
      simp only
      omega
    rw [search_loop_step _ _ _ hr (hz r)]
    simp only
    rw [ih (r + 1) hz cnt (by omega)]
    simp [countAccepted, Nat.add_comm]

/-- Draining a cursor whose fetch fails with -1 at the m-th row (rows
before it succeed): the loop makes m + 1 fetch calls and returns the rows
accepted before the failure. -/
theorem search_loop_drain_err (m : Nat) (fetch : Int → Int) (accept : Int → Bool) :
    ∀ r : Int, (∀ j : Int, r ≤ j → j < r + m → fetch j = 0) → fetch (r + m) = -1 →
      ∀ cnt : Int, r + m < cnt →
        search_loop fetch accept ⟨cnt, r⟩ = (countAccepted accept r m, m + 1) := by
  induction m with
  | zero =>
    intro r _ herr cnt hcnt
    have herr2 : fetch r = -1 := by simpa using herr
    have hr : (⟨cnt, r⟩ : db_query_state_t).row < (⟨cnt, r⟩ : db_query_state_t).count := by
      simp only
      omega
    rw [search_loop_err _ _ _ hr (by simp only; rw [herr2]; omega)]
    rfl
  | succ m ih =>
    intro r hok herr cnt hcnt
    have herr2 : fetch (r + 1 + (m : Nat)) = -1 := by
      have : r + 1 + ((m : Nat) : Int) = r + (((m : Nat) + 1 : Nat) : Int) := by push_cast; ring
      rw [this]
      exact herr
    have hr : (⟨cnt, r⟩ : db_query_state_t).row < (⟨cnt, r⟩ : db_query_state_t).count := by
      simp only
      omega
    rw [search_loop_step _ _ _ hr (hok r (le_refl r) (by push_cast; omega))]
    simp only
    rw [ih (r + 1) (by intro j h1 h2; exact hok j (by omega) (by push_cast at h2 ⊢; omega))
      herr2 cnt (by push_cast at hcnt ⊢; omega)]
    simp [countAccepted, Nat.add_comm]

/-! ## Claims C1, C2, C10, C3, C9: cursor and search behaviour -/

/-- C1 counterexample: on a cursor with count = 1 whose row index is -1
when the draining starts (the initial value left by db_initialize_state),
draining db_cursor_next with every fetch succeeding invokes the per-row
fetch 2 times, not the 1 time the claim states: the guard row < count also
fires for row = -1. -/
theorem c1_counterexample :
    (search_loop (fun _ => 0) (fun _ => true) ⟨1, -1⟩).2 = 2 ∧ ¬ (2 : Nat) = 1 := by
  constructor
  · rw [search_loop_drain_success 2 (fun _ => 0) (fun _ => true) (-1) (fun _ => rfl) 1 (by omega)]
  · omega

/-- C1 (amended): for a cursor whose find recorded count ≥ 0 rows and left
the current-row index at 0 (the position the per-kind find establishes,
spec 4.5 Unpositioned to Positioned), draining db_cursor_next until it
stops returning 0 invokes the per-row fetch exactly count times when every
fetch succeeds; and any db_cursor_next call on a state with row ≥ count
returns 1 without invoking the fetch or touching the backend. -/
theorem c1_drain_exact_from_zero (fetch : Int → Int) (accept : Int → Bool) (c : Int)
    (s : db_query_state_t) (hc : 0 ≤ c) (hsucc : ∀ j, fetch j = 0)
    (hs : s.count ≤ s.row) :
    (search_loop fetch accept ⟨c, 0⟩).2 = c.toNat ∧
      db_cursor_next fetch s = (1, s, 0) := by
  constructor
  · rw [search_loop_drain_success c.toNat fetch accept 0 hsucc c (by omega)]
  · unfold db_cursor_next
    rw [if_neg (by omega)]

theorem c1_drain_exact_from_zero_witness :
    0 ≤ (3 : Int) ∧ (⟨2, 5⟩ : db_query_state_t).count ≤ (⟨2, 5⟩ : db_query_state_t).row ∧
      ((search_loop (fun _ => 0) (fun _ => true) ⟨3, 0⟩).2 = (3 : Int).toNat ∧
        db_cursor_next (fun _ => 0) ⟨2, 5⟩ = (1, ⟨2, 5⟩, 0)) :=
  ⟨by decide, by decide,
    c1_drain_exact_from_zero (fun _ => 0) (fun _ => true) 3 ⟨2, 5⟩ (by decide)
      (fun _ => rfl) (by decide)⟩

/-- C2 counterexample: with row = 0 < count = 2 and a fetch that returns
-1, db_cursor_next returns -1 but the current-row index advances to 1; it
is not left unchanged as the claim states. -/
theorem c2_counterexample :
    (db_cursor_next (fun _ => -1) ⟨2, 0⟩).1 = -1 ∧
      (db_cursor_next (fun _ => -1) ⟨2, 0⟩).2.1.row = 1 ∧ ¬ (1 : Int) = 0 := by
  decide

/-- C2 (amended): when row < count and the per-row fetch returns -1,
db_cursor_next returns -1 (so the caller must stop on its own), but the
current-row index is advanced by one all the same: the advance is
unconditional, exactly as on success. -/
theorem c2_error_still_advances (fetch : Int → Int) (s : db_query_state_t)
    (h : s.row < s.count) (hf : fetch s.row = -1) :
    db_cursor_next fetch s = (-1, ⟨s.count, s.row + 1⟩, 1) := by
  unfold db_cursor_next
  rw [if_pos h, hf]

theorem c2_error_still_advances_witness :
    (⟨2, 0⟩ : db_query_state_t).row < (⟨2, 0⟩ : db_query_state_t).count ∧
      db_cursor_next (fun _ => -1) ⟨2, 0⟩ = (-1, ⟨2, 1⟩, 1) :=
  ⟨by decide, c2_error_still_advances (fun _ => -1) ⟨2, 0⟩ (by decide) rfl⟩

/-- C10: on a freshly initialized cursor state, where db_initialize_state
left row = -1 and count = -1 and find has not run, db_cursor_next returns
1 (no more rows) without invoking any per-row fetch, because row < count
is false when both are -1. -/
theorem c10_fresh_state_no_rows (fetch : Int → Int) :
    db_cursor_next fetch db_initialize_state = (1, db_initialize_state, 0) := by
  unfold db_cursor_next db_initialize_state
  rw [if_neg (by decide)]

/-- C3: pbs_db_search over a find that succeeds on an empty result set
(modelled per spec by pbs_db_find_obj_spec 0) returns 0, creating and
destroying the cursor state; whenever pbs_db_search returns -1 the state
allocation or the find itself failed and no fetch was ever made; and on
every path that allocates the cursor state, the state is destroyed before
returning. -/
theorem c3_search_empty_and_error_contract (allocOk : Bool)
    (find : db_query_state_t → Int × db_query_state_t)
    (fetch : Int → Int) (accept : Int → Bool) :
    pbs_db_search true (pbs_db_find_obj_spec 0) fetch accept = ⟨0, 0, true, true⟩ ∧
      ((pbs_db_search allocOk find fetch accept).retval = -1 →
        (allocOk = false ∨ (find db_initialize_state).1 = -1) ∧
          (pbs_db_search allocOk find fetch accept).fetchCalls = 0) ∧
      ((pbs_db_search allocOk find fetch accept).created = true →
        (pbs_db_search allocOk find fetch accept).destroyed = true) := by
  refine ⟨?_, ?_, ?_⟩
  · have h0 : search_loop fetch accept db_initialize_state = (0, 0) :=
      search_loop_stop _ _ _ (by decide)
    simp [pbs_db_search, pbs_db_find_obj_spec, h0]
  · cases allocOk with
    | false => intro _; exact ⟨Or.inl rfl, rfl⟩
    | true =>
      intro hret
      by_cases hfr : (find db_initialize_state).1 = -1
      · exact ⟨Or.inr hfr, by simp [pbs_db_search, hfr]⟩
      · exfalso
        have : (pbs_db_search true find fetch accept).retval =
            ((search_loop fetch accept (find db_initialize_state).2).1 : Int) := by
          simp [pbs_db_search, hfr]
        rw [this] at hret
        omega
  · cases allocOk with
    | false => intro h; exact h
    | true =>
      intro _
      by_cases hfr : (find db_initialize_state).1 = -1 <;> simp [pbs_db_search, hfr]

theorem c3_search_empty_and_error_contract_witness :
    (pbs_db_search true (fun s => (-1, s)) (fun _ => 0) (fun _ => true)).retval = -1 ∧
      (pbs_db_search true (fun s => (-1, s)) (fun _ => 0) (fun _ => true)).created = true ∧
      ((true = false ∨ ((fun (s : db_query_state_t) => ((-1 : Int), s)) db_initialize_state).1 = -1) ∧
        (pbs_db_search true (fun s => (-1, s)) (fun _ => 0) (fun _ => true)).fetchCalls = 0) ∧
      (pbs_db_search true (fun s => (-1, s)) (fun _ => 0) (fun _ => true)).destroyed = true := by
  refine ⟨by decide, by decide, ?_, ?_⟩
  · exact (c3_search_empty_and_error_contract true (fun s => (-1, s)) (fun _ => 0)
      (fun _ => true)).2.1 (by decide)
  · exact (c3_search_empty_and_error_contract true (fun s => (-1, s)) (fun _ => 0)
      (fun _ => true)).2.2 (by decide)

/-- C9: when the find succeeded over n rows and the per-row fetch fails
with -1 at row m (all rows before it fetching fine), pbs_db_search stops
iterating and returns the count of rows accepted so far: a value ≥ 0,
indistinguishable from normal exhaustion, not -1; the cursor state is
still destroyed. -/
theorem c9_fetch_error_returns_partial_count (n m : Nat) (fetch : Int → Int)
    (accept : Int → Bool) (hmn : m < n)
    (hok : ∀ j : Int, 0 ≤ j → j < (m : Int) → fetch j = 0)
    (herr : fetch (m : Int) = -1) :
    pbs_db_search true (pbs_db_find_obj_spec n) fetch accept =
      ⟨(countAccepted accept 0 m : Int), m + 1, true, true⟩ ∧
      (0 : Int) ≤ ((countAccepted accept 0 m : Nat) : Int) := by
  constructor
  · have hn : ¬ n = 0 := by omega
    have hloop := search_loop_drain_err m fetch accept 0
      (by intro j h1 h2; exact hok j h1 (by simpa using h2))
      (by simpa using herr) (n : Int) (by omega)
    simp [pbs_db_search, pbs_db_find_obj_spec, hn, hloop]
  · exact Int.ofNat_nonneg _

theorem c9_fetch_error_returns_partial_count_witness :
    (1 : Nat) < 2 ∧ (fun j => if j < (1 : Int) then (0 : Int) else -1) (1 : Int) = -1 ∧
      pbs_db_search true (pbs_db_find_obj_spec 2)
          (fun j => if j < (1 : Int) then (0 : Int) else -1) (fun _ => true) =
        ⟨(countAccepted (fun _ => true) 0 1 : Int), 2, true, true⟩ :=
  ⟨by decide, by decide,
    (c9_fetch_error_returns_partial_count 2 1 (fun j => if j < (1 : Int) then (0 : Int) else -1)
      (fun _ => true) (by decide)
      (fun j h1 h2 => by
        show (if j < (1 : Int) then (0 : Int) else -1) = 0
        rw [if_pos (by exact_mod_cast h2)])
      (by decide)).1⟩

/-! ## Claim C5: schema migration -/

/-- C5: svr_migrate_data on stored version (1,0) runs the warm recovery
load, marks every node dirty, bulk-saves the nodes and returns 0, with any
failure of either step returning -1; on (3,0) it returns 0 with no side
effects; on any other version it returns -1 without touching the
backend. -/
theorem c5_migrate_version_dispatch (env : MigrateEnv) (mj mn : Int)
    (hs : env.schema = some (mj, mn)) :
    ((mj = 1 ∧ mn = 0) →
      (env.pbsd_init_rc = 0 → env.save_nodes_rc = 0 →
        svr_migrate_data env = ⟨0, true, env.nodes.map (fun _ => true), true⟩) ∧
      (env.pbsd_init_rc ≠ 0 → svr_migrate_data env = ⟨-1, true, env.nodes, false⟩) ∧
      (env.pbsd_init_rc = 0 → env.save_nodes_rc ≠ 0 →
        svr_migrate_data env = ⟨-1, true, env.nodes.map (fun _ => true), true⟩)) ∧
    ((mj = 3 ∧ mn = 0) → svr_migrate_data env = ⟨0, false, env.nodes, false⟩) ∧
    (¬ (mj = 1 ∧ mn = 0) → ¬ (mj = 3 ∧ mn = 0) →
      svr_migrate_data env = ⟨-1, false, env.nodes, false⟩) := by
  refine ⟨fun h10 => ⟨?_, ?_, ?_⟩, fun h30 => ?_, fun h1 h3 => ?_⟩
  · intro hi hsv
    simp [svr_migrate_data, hs, h10.1, h10.2, hi, hsv]
  · intro hi
    simp [svr_migrate_data, hs, h10.1, h10.2, hi]
  · intro hi hsv
    simp [svr_migrate_data, hs, h10.1, h10.2, hi, hsv]
  · have hn1 : ¬ ((mj = 1) ∧ (mn = 0)) := by
      rintro ⟨h, _⟩
      rw [h30.1] at h
      omega
    simp [svr_migrate_data, hs, hn1, h30.1, h30.2]
  · simp [svr_migrate_data, hs, if_neg h1, if_neg h3]

theorem c5_migrate_version_dispatch_witness :
    (⟨some (2, 7), 0, 0, [false, true]⟩ : MigrateEnv).schema = some (2, 7) ∧
      ¬ ((2 : Int) = 1 ∧ (7 : Int) = 0) ∧ ¬ ((2 : Int) = 3 ∧ (7 : Int) = 0) ∧
      svr_migrate_data ⟨some (2, 7), 0, 0, [false, true]⟩ = ⟨-1, false, [false, true], false⟩ :=
  ⟨rfl, by decide, by decide,
    (c5_migrate_version_dispatch ⟨some (2, 7), 0, 0, [false, true]⟩ 2 7 rfl).2.2
      (by decide) (by decide)⟩

/-! ## Claim C6: three-way result of the execution primitives -/

/-- C6: when the backend accepts the statement, a zero or absent
rows-affected count (and, for the ad hoc form, no returned rows either)
makes db_cmd and db_execute_str return 1, distinct from the -1 returned
exactly when the backend rejects the statement; at least one affected (or
returned) row yields 0. -/
theorem c6_exec_three_way (res : PGresultM) :
    (res.status = ExecStatus.PGRES_COMMAND_OK →
      ((res.cmdTuples = none ∨ ∃ ra, res.cmdTuples = some ra ∧ strtol10 ra ≤ 0) →
        db_cmd res = 1) ∧
      (∀ ra, res.cmdTuples = some ra → 0 < strtol10 ra → db_cmd res = 0)) ∧
    (db_cmd res = -1 ↔ res.status ≠ ExecStatus.PGRES_COMMAND_OK) ∧
    ((res.status = ExecStatus.PGRES_COMMAND_OK ∨ res.status = ExecStatus.PGRES_TUPLES_OK) →
      ((res.cmdTuples = none ∨ ∃ ra, res.cmdTuples = some ra ∧ strtol10 ra ≤ 0) →
        res.ntuples ≤ 0 → db_execute_str res = 1) ∧
      (((∃ ra, res.cmdTuples = some ra ∧ 0 < strtol10 ra) ∨ 0 < res.ntuples) →
        db_execute_str res = 0)) ∧
    (db_execute_str res = -1 ↔
      (res.status ≠ ExecStatus.PGRES_COMMAND_OK ∧ res.status ≠ ExecStatus.PGRES_TUPLES_OK)) := by
  refine ⟨fun hst => ⟨?_, ?_⟩, ⟨?_, ?_⟩, fun hst => ⟨?_, ?_⟩, ⟨?_, ?_⟩⟩
  · rintro (hn | ⟨ra, hra, hle⟩)
    · simp [db_cmd, hst, cmdTuplesLeZero, hn]
    · simp [db_cmd, hst, cmdTuplesLeZero, hra, hle]
  · intro ra hra hgt
    simp [db_cmd, hst, cmdTuplesLeZero, hra]
    omega
  · intro h
    by_contra hok
    rw [db_cmd, if_neg (by simp [hok])] at h
    by_cases hz : cmdTuplesLeZero res.cmdTuples = true <;> simp [hz] at h
  · intro h
    simp [db_cmd, h]
  · rintro (hn | ⟨ra, hra, hle⟩) hnt
    · have : ¬ (res.status ≠ ExecStatus.PGRES_COMMAND_OK ∧
          res.status ≠ ExecStatus.PGRES_TUPLES_OK) := by
        rcases hst with h | h <;> simp [h]
      simp [db_execute_str, this, cmdTuplesLeZero, hn, hnt]
    · have : ¬ (res.status ≠ ExecStatus.PGRES_COMMAND_OK ∧
          res.status ≠ ExecStatus.PGRES_TUPLES_OK) := by
        rcases hst with h | h <;> simp [h]
      simp [db_execute_str, this, cmdTuplesLeZero, hra, hle, hnt]
  · intro hpos
    have hacc : ¬ (res.status ≠ ExecStatus.PGRES_COMMAND_OK ∧
        res.status ≠ ExecStatus.PGRES_TUPLES_OK) := by
      rcases hst with h | h <;> simp [h]
    rcases hpos with ⟨ra, hra, hgt⟩ | hnt
    · have : cmdTuplesLeZero res.cmdTuples = false := by
        simp [cmdTuplesLeZero, hra]
        omega
      simp [db_execute_str, hacc, this]
    · rw [db_execute_str, if_neg hacc, if_neg (by rintro ⟨_, h2⟩; omega)]
  · intro h
    by_contra hok
    rw [db_execute_str, if_neg hok] at h
    by_cases hz : cmdTuplesLeZero res.cmdTuples = true ∧ res.ntuples ≤ 0 <;> simp [hz] at h
  · intro h
    simp [db_execute_str, h]

theorem c6_exec_three_way_witness :
    (⟨ExecStatus.PGRES_COMMAND_OK, some ['0'], 0⟩ : PGresultM).status =
        ExecStatus.PGRES_COMMAND_OK ∧
      strtol10 ['0'] ≤ 0 ∧
      db_cmd ⟨ExecStatus.PGRES_COMMAND_OK, some ['0'], 0⟩ = 1 ∧
      db_execute_str ⟨ExecStatus.PGRES_COMMAND_OK, some ['0'], 0⟩ = 1 :=
  ⟨rfl, by decide,
    ((c6_exec_three_way ⟨ExecStatus.PGRES_COMMAND_OK, some ['0'], 0⟩).1 rfl).1
      (Or.inr ⟨['0'], rfl, by decide⟩),
    ((c6_exec_three_way ⟨ExecStatus.PGRES_COMMAND_OK, some ['0'], 0⟩).2.2.1 (Or.inl rfl)).1
      (Or.inr ⟨['0'], rfl, by decide⟩) (by decide)⟩

/-! ## Claim C7: password escaping -/

/-- The escape loop never hits its capacity bound while the remaining
output fits: with pos + 2 * (remaining source) ≤ len it produces exactly
the spec escaping of the remaining source. -/
theorem escape_passwd_go_eq_spec (src : List Char) :
    ∀ pos len : Int, pos + 2 * (src.length : Int) ≤ len →
      escape_passwd_go src pos len = escape_passwd_spec src := by
  induction src with
  | nil => intro pos len _; rfl
  | cons c rest ih =>
    intro pos len hcap
    have hlen : (rest.length : Int) + 1 = ((c :: rest).length : Int) := by
      simp
    have hpos : pos < len := by
      rw [← hlen] at hcap
      omega
    by_cases hc : c = squote ∨ c = bslash
    · simp only [escape_passwd_go, escape_passwd_spec, if_pos hpos, if_pos hc]
      rw [ih (pos + 2) len (by rw [← hlen] at hcap; omega)]
      simp
    · simp only [escape_passwd_go, escape_passwd_spec, if_pos hpos, if_neg hc]
      rw [ih (pos + 1) len (by rw [← hlen] at hcap; omega)]
      simp

theorem unescape_bslash_cons (c : Char) (l : List Char) :
    unescape (bslash :: c :: l) = c :: unescape l := by
  simp [unescape]

theorem unescape_cons_of_ne (c : Char) (l : List Char) (h : ¬ c = bslash) :
    unescape (c :: l) = c :: unescape l := by
  rw [unescape.eq_def]
  simp only [if_neg h]

/-- Removing each escape backslash undoes the spec escaping. -/
theorem unescape_escape_spec (src : List Char) :
    unescape (escape_passwd_spec src) = src := by
  induction src with
  | nil => rfl
  | cons c rest ih =>
    by_cases hc : c = squote ∨ c = bslash
    · rw [show escape_passwd_spec (c :: rest) = bslash :: c :: escape_passwd_spec rest by
        simp [escape_passwd_spec, if_pos hc]]
      rw [unescape_bslash_cons, ih]
    · have hnb : ¬ c = bslash := fun h => hc (Or.inr h)
      rw [show escape_passwd_spec (c :: rest) = c :: escape_passwd_spec rest by
        simp [escape_passwd_spec, if_neg hc]]
      rw [unescape_cons_of_ne c _ hnb, ih]

/-- C7: with a destination of capacity at least twice the source length
plus one, escape_passwd produces the source with each backslash and each
single quote prefixed by a backslash and every other byte unchanged (the
spec transformation), and removing each escape backslash recovers the
source byte for byte. -/
theorem c7_escape_passwd_roundtrip (src : List Char) (len : Int)
    (hlen : 2 * (src.length : Int) + 1 ≤ len) :
    escape_passwd src len = escape_passwd_spec src ∧
      unescape (escape_passwd src len) = src := by
  have he : escape_passwd src len = escape_passwd_spec src :=
    escape_passwd_go_eq_spec src 0 len (by omega)
  exact ⟨he, by rw [he]; exact unescape_escape_spec src⟩

theorem c7_escape_passwd_roundtrip_witness :
    2 * ((['a', squote, bslash, 'b'].length : Nat) : Int) + 1 ≤ 9 ∧
      (escape_passwd ['a', squote, bslash, 'b'] 9 =
          escape_passwd_spec ['a', squote, bslash, 'b'] ∧
        unescape (escape_passwd ['a', squote, bslash, 'b'] 9) = ['a', squote, bslash, 'b']) :=
  ⟨by decide, c7_escape_passwd_roundtrip ['a', squote, bslash, 'b'] 9 (by decide)⟩

/-! ## Claim C4: substring classification through the db_set_error wrapper -/

theorem strstr_iff (hay needle : List Char) : strstr hay needle = true ↔ needle <:+: hay := by
  simp [strstr]

/-- Splitting a string at its trailing newline run. -/
theorem trim_decomp (m : List Char) :
    ∃ b, m = trimNewlines m ++ b ∧ ∀ c ∈ b, isNL c = true := by
  refine ⟨(m.reverse.takeWhile isNL).reverse, ?_, ?_⟩
  · conv_lhs => rw [← m.reverse_reverse,
      ← List.takeWhile_append_dropWhile (p := isNL) (l := m.reverse)]
    rw [List.reverse_append]
    rfl
  · intro c hc
    rw [List.mem_reverse] at hc
    exact List.mem_takeWhile_imp hc

/-- An infix avoiding newline characters survives dropping one trailing
newline character. -/
theorem infix_of_infix_concat_nl (n l : List Char) (x : Char) (hx : isNL x = true)
    (hn : ∀ c ∈ n, isNL c = false) : n <:+: l ++ [x] → n <:+: l := by
  rintro ⟨s, t, hst⟩
  rcases t.eq_nil_or_concat with rfl | ⟨ts, y, hty⟩
  · rw [List.append_nil] at hst
    rcases n.eq_nil_or_concat with rfl | ⟨ns, c, hnc⟩
    · exact List.nil_infix
    · rw [List.concat_eq_append] at hnc
      subst hnc
      rw [← List.append_assoc] at hst
      have hinj := List.append_inj' hst (by rfl)
      have hcx : c = x := by
        have h2 := hinj.2
        injection h2
      have hcn : c ∈ ns ++ [c] := by simp
      have hfalse := hn c hcn
      rw [hcx, hx] at hfalse
      cases hfalse
  · rw [List.concat_eq_append] at hty
    subst hty
    rw [← List.append_assoc] at hst
    have hinj := List.append_inj' hst (by rfl)
    exact ⟨s, ts, hinj.1⟩

/-- An infix avoiding newline characters survives dropping a trailing
all-newline block. -/
theorem infix_of_infix_append_nl (n a b : List Char) (hb : ∀ c ∈ b, isNL c = true)
    (hn : ∀ c ∈ n, isNL c = false) : n <:+: a ++ b → n <:+: a := by
  induction b using List.reverseRecOn generalizing a with
  | nil => intro h; simpa using h
  | append_singleton bs x ih =>
    intro h
    rw [← List.append_assoc] at h
    have h2 := infix_of_infix_concat_nl n (a ++ bs) x (hb x (by simp)) hn h
    exact ih a (fun c hc => hb c (List.mem_append_left _ hc)) h2

/-- An occurrence inside a ++ b lies in a, lies in b, or spans the border
with a nonempty suffix of a glued to a nonempty prefix of b. -/
theorem infix_append_cases (n a b : List Char) (h : n <:+: a ++ b) :
    n <:+: a ∨ n <:+: b ∨
      ∃ n1 n2, n = n1 ++ n2 ∧ n1 ≠ [] ∧ n2 ≠ [] ∧ n1 <:+ a ∧ n2 <+: b := by
  rcases h with ⟨s, t, hst⟩
  have hpre1 : s <+: a ++ b := ⟨n ++ t, by rw [← hst]; simp [List.append_assoc]⟩
  have hpre2 : s ++ n <+: a ++ b := ⟨t, by rw [← hst]⟩
  by_cases h1 : s.length + n.length ≤ a.length
  · left
    have hsn : s ++ n <+: a :=
      List.prefix_of_prefix_length_le hpre2 (List.prefix_append a b)
        (by simp only [List.length_append]; omega)
    rcases hsn with ⟨r, hr⟩
    exact ⟨s, r, by rw [← hr]⟩
  · by_cases h2 : a.length ≤ s.length
    · right; left
      have has : a <+: s :=
        List.prefix_of_prefix_length_le (List.prefix_append a b) hpre1 h2
      rcases has with ⟨s2, hs2⟩
      rw [← hs2] at hst
      simp only [List.append_assoc] at hst
      have hcan := List.append_cancel_left hst
      exact ⟨s2, t, by rw [← hcan]; simp [List.append_assoc]⟩
    · have hsa : s <+: a :=
        List.prefix_of_prefix_length_le hpre1 (List.prefix_append a b) (by omega)
      rcases hsa with ⟨a2, ha2⟩
      have hapre : a <+: s ++ n :=
        List.prefix_of_prefix_length_le (List.prefix_append a b) hpre2
          (by simp only [List.length_append]; omega)
      rcases hapre with ⟨r, hr⟩
      rw [← ha2, List.append_assoc] at hr
      have hn2 : a2 ++ r = n := List.append_cancel_left hr
      have hla : a.length = s.length + a2.length := by
        rw [← ha2]
        simp
      have hln : n.length = a2.length + r.length := by
        rw [← hn2]
        simp
      refine Or.inr (Or.inr ⟨a2, r, hn2.symm, ?_, ?_, ⟨s, ha2⟩, ?_⟩)
      · intro hnil
        rw [hnil] at hla
        simp only [List.length_nil] at hla
        omega
      · intro hnil
        rw [hnil] at hln
        simp only [List.length_nil] at hln
        omega
      · rw [← hn2, ← ha2] at hst
        simp only [List.append_assoc] at hst
        have e1 := List.append_cancel_left hst
        have e2 := List.append_cancel_left e1
        exact ⟨t, e2⟩

/-- For a needle that avoids newlines, does not occur inside the constant
wrapper text, cannot start inside it (no nonempty suffix of the wrapper is
a prefix of the needle), and does not end in a space, occurrence in the
cached message db_set_error builds on the is_conn_error path is the same
as occurrence in the raw backend message. -/
theorem infix_conn_cache_iff (m n : List Char)
    (hn : ∀ c ∈ n, isNL c = false)
    (hw : ¬ n <:+: connWrapper)
    (hspan : ∀ t ∈ connWrapper.tails, t ≠ [] → ¬ t <+: n)
    (hsp : ¬ [' '] <:+ n) :
    (n <:+: db_set_error_msg fncConnection [] m []) ↔ n <:+: m := by
  have hcache : db_set_error_msg fncConnection [] m [] =
      connWrapper ++ (trimNewlines m ++ [' ']) := by
    simp [db_set_error_msg, connWrapper, List.append_assoc]
  obtain ⟨b, hb, hbnl⟩ := trim_decomp m
  constructor
  · intro h
    rw [hcache] at h
    rcases infix_append_cases n connWrapper (trimNewlines m ++ [' ']) h with
      h1 | h1 | ⟨n1, n2, hsplit, hne1, hne2, hsuf, hpre⟩
    · exact absurd h1 hw
    · rcases infix_append_cases n (trimNewlines m) [' '] h1 with
        h2 | h2 | ⟨n1, n2, hsplit, hne1, hne2, hsuf, hpre⟩
      · have hpm : trimNewlines m <+: m := ⟨b, hb.symm⟩
        exact h2.trans hpm.isInfix
      · rcases n with _ | ⟨c, rest⟩
        · exact List.nil_infix
        · exfalso
          have hlen := h2.length_le
          simp only [List.length_cons, List.length_nil] at hlen
          have hrest : rest = [] := List.eq_nil_of_length_eq_zero (by omega)
          have hcmem : c ∈ [' '] := h2.sublist.mem (List.mem_cons_self c rest)
          have hc : c = ' ' := by simpa using hcmem
          apply hsp
          rw [hc, hrest]
      · exfalso
        have hn2 : n2 = [' '] := by
          rcases n2 with _ | ⟨c, r⟩
          · exact absurd rfl hne2
          · rcases hpre with ⟨t, ht⟩
            rw [List.cons_append] at ht
            injection ht with hc1 hc2
            obtain ⟨hr, _⟩ := List.append_eq_nil.mp hc2
            rw [hc1, hr]
        apply hsp
        rw [hn2] at hsplit
        exact ⟨n1, hsplit.symm⟩
    · have hn1p : n1 <+: n := ⟨n2, hsplit.symm⟩
      exact absurd hn1p (hspan n1 ((List.mem_tails _ _).mpr hsuf) hne1)
  · intro h
    have h2 : n <:+: trimNewlines m := by
      apply infix_of_infix_append_nl n (trimNewlines m) b hbnl hn
      rw [← hb]
      exact h
    rw [hcache]
    exact h2.trans (List.infix_append' connWrapper (trimNewlines m) [' '])

theorem infix_cache_iff_refused (m : List Char) :
    (needleConnRefused <:+: db_set_error_msg fncConnection [] m []) ↔
      needleConnRefused <:+: m :=
  infix_conn_cache_iff m needleConnRefused (by decide) (by decide) (by decide) (by decide)

theorem infix_cache_iff_nosuchfile (m : List Char) :
    (needleNoSuchFile <:+: db_set_error_msg fncConnection [] m []) ↔
      needleNoSuchFile <:+: m :=
  infix_conn_cache_iff m needleNoSuchFile (by decide) (by decide) (by decide) (by decide)

theorem infix_cache_iff_auth (m : List Char) :
    (needleAuth <:+: db_set_error_msg fncConnection [] m []) ↔ needleAuth <:+: m :=
  infix_conn_cache_iff m needleAuth (by decide) (by decide) (by decide) (by decide)

theorem infix_cache_iff_starting (m : List Char) :
    (needleStarting <:+: db_set_error_msg fncConnection [] m []) ↔ needleStarting <:+: m :=
  infix_conn_cache_iff m needleStarting (by decide) (by decide) (by decide) (by decide)

/-- C4: classification of connection failures. A null session yields
return 1 with failcode PBS_DB_CONNFAILED; a healthy session is no error
(return 0, failcode untouched); a bad session is classified by substring
match on its diagnostic text, in the order of the source: Connection
refused or No such file or directory gives PBS_DB_CONNREFUSED,
authentication gives PBS_DB_AUTH_FAILED, database system is starting up
gives PBS_DB_STILL_STARTING, anything else gives PBS_DB_CONNFAILED. -/
theorem c4_is_conn_error_classification (m : List Char) :
    is_conn_error none = (1, some PbsDbErr.PBS_DB_CONNFAILED) ∧
    is_conn_error (some ⟨PGConnStatus.CONNECTION_OK, m⟩) = (0, none) ∧
    ((needleConnRefused <:+: m ∨ needleNoSuchFile <:+: m) →
      is_conn_error (some ⟨PGConnStatus.CONNECTION_BAD, m⟩) =
        (1, some PbsDbErr.PBS_DB_CONNREFUSED)) ∧
    (¬ needleConnRefused <:+: m → ¬ needleNoSuchFile <:+: m → needleAuth <:+: m →
      is_conn_error (some ⟨PGConnStatus.CONNECTION_BAD, m⟩) =
        (1, some PbsDbErr.PBS_DB_AUTH_FAILED)) ∧
    (¬ needleConnRefused <:+: m → ¬ needleNoSuchFile <:+: m → ¬ needleAuth <:+: m →
      needleStarting <:+: m →
      is_conn_error (some ⟨PGConnStatus.CONNECTION_BAD, m⟩) =
        (1, some PbsDbErr.PBS_DB_STILL_STARTING)) ∧
    (¬ needleConnRefused <:+: m → ¬ needleNoSuchFile <:+: m → ¬ needleAuth <:+: m →
      ¬ needleStarting <:+: m →
      is_conn_error (some ⟨PGConnStatus.CONNECTION_BAD, m⟩) =
        (1, some PbsDbErr.PBS_DB_CONNFAILED)) := by
  have eR : strstr (db_set_error_msg fncConnection [] m []) needleConnRefused =
      decide (needleConnRefused <:+: m) := by
    simp only [strstr]
    exact decide_eq_decide.mpr (infix_cache_iff_refused m)
  have eN : strstr (db_set_error_msg fncConnection [] m []) needleNoSuchFile =
      decide (needleNoSuchFile <:+: m) := by
    simp only [strstr]
    exact decide_eq_decide.mpr (infix_cache_iff_nosuchfile m)
  have eA : strstr (db_set_error_msg fncConnection [] m []) needleAuth =
      decide (needleAuth <:+: m) := by
    simp only [strstr]
    exact decide_eq_decide.mpr (infix_cache_iff_auth m)
  have eS : strstr (db_set_error_msg fncConnection [] m []) needleStarting =
      decide (needleStarting <:+: m) := by
    simp only [strstr]
    exact decide_eq_decide.mpr (infix_cache_iff_starting m)
  refine ⟨rfl, by simp [is_conn_error], ?_, ?_, ?_, ?_⟩
  · intro hcond
    simp [is_conn_error, eR, eN]
    rcases hcond with hc | hc
    · simp [hc]
    · simp [hc]
  · intro h1 h2 h3
    simp [is_conn_error, eR, eN, eA, h1, h2, h3]
  · intro h1 h2 h3 h4
    simp [is_conn_error, eR, eN, eA, eS, h1, h2, h3, h4]
  · intro h1 h2 h3 h4
    simp [is_conn_error, eR, eN, eA, eS, h1, h2, h3, h4]

theorem c4_is_conn_error_classification_witness :
    (¬ needleConnRefused <:+: "FATAL:  password authentication failed".toList ∧
      ¬ needleNoSuchFile <:+: "FATAL:  password authentication failed".toList ∧
      needleAuth <:+: "FATAL:  password authentication failed".toList) ∧
    is_conn_error
        (some ⟨PGConnStatus.CONNECTION_BAD, "FATAL:  password authentication failed".toList⟩) =
      (1, some PbsDbErr.PBS_DB_AUTH_FAILED) :=
  ⟨⟨by decide, by decide, by decide⟩,
    (c4_is_conn_error_classification "FATAL:  password authentication failed".toList).2.2.2.1
      (by decide) (by decide) (by decide)⟩

/-! ## Claim C8: parsing the built descriptor back into fields -/

theorem takeWhile_append_cons (p : Char → Bool) (key : List Char) (x : Char) (r : List Char)
    (hk : ∀ c ∈ key, p c = true) (hx : p x = false) :
    (key ++ x :: r).takeWhile p = key ∧ (key ++ x :: r).dropWhile p = x :: r := by
  induction key with
  | nil => simp [List.takeWhile_cons, List.dropWhile_cons, hx]
  | cons c ck ih =>
    have hc : p c = true := hk c (List.mem_cons_self c ck)
    have ihr := ih (fun d hd => hk d (List.mem_cons_of_mem c hd))
    simp [List.takeWhile_cons, List.dropWhile_cons, hc, ihr.1, ihr.2]

theorem takeWhile_all (p : Char → Bool) (v : List Char) (hv : ∀ c ∈ v, p c = true) :
    v.takeWhile p = v ∧ v.dropWhile p = [] := by
  induction v with
  | nil => simp
  | cons c ck ih =>
    have hc : p c = true := hv c (List.mem_cons_self c ck)
    have ihr := ih (fun d hd => hv d (List.mem_cons_of_mem c hd))
    simp [List.takeWhile_cons, List.dropWhile_cons, hc, ihr.1, ihr.2]

theorem parseQuoted_cons (c : Char) (rest : List Char) :
    parseQuoted (c :: rest) =
      if c = bslash then
        (match rest with
         | [] => none
         | c2 :: rest2 => (parseQuoted rest2).map (fun pr => (c2 :: pr.1, pr.2)))
      else if c = squote then some ([], rest)
      else (parseQuoted rest).map (fun pr => (c :: pr.1, pr.2)) := by
  rw [parseQuoted.eq_def]

theorem parseQuoted_escape (v : List Char) :
    ∀ rest : List Char, parseQuoted (escape_passwd_spec v ++ squote :: rest) = some (v, rest) := by
  induction v with
  | nil =>
    intro rest
    rw [show escape_passwd_spec [] ++ squote :: rest = squote :: rest by
      simp [escape_passwd_spec]]
    rw [parseQuoted_cons, if_neg (by decide), if_pos rfl]
  | cons c v2 ih =>
    intro rest
    by_cases hc : c = squote ∨ c = bslash
    · rw [show escape_passwd_spec (c :: v2) ++ squote :: rest =
        bslash :: c :: (escape_passwd_spec v2 ++ squote :: rest) by
          simp [escape_passwd_spec, if_pos hc]]
      rw [parseQuoted_cons, if_pos rfl]
      show (parseQuoted (escape_passwd_spec v2 ++ squote :: rest)).map
        (fun pr => (c :: pr.1, pr.2)) = some (c :: v2, rest)
      rw [ih rest]
      rfl
    · have hnb : ¬ c = bslash := fun h => hc (Or.inr h)
      have hnq : ¬ c = squote := fun h => hc (Or.inl h)
      rw [show escape_passwd_spec (c :: v2) ++ squote :: rest =
        c :: (escape_passwd_spec v2 ++ squote :: rest) by
          simp [escape_passwd_spec, if_neg hc]]
      rw [parseQuoted_cons, if_neg hnb, if_neg hnq, ih rest]
      rfl

theorem escape_passwd_spec_id (v : List Char) (hv : ∀ c ∈ v, ¬ (c = squote ∨ c = bslash)) :
    escape_passwd_spec v = v := by
  induction v with
  | nil => rfl
  | cons c v2 ih =>
    have hc := hv c (List.mem_cons_self c v2)
    simp only [escape_passwd_spec, if_neg hc, List.cons_append, List.nil_append]
    rw [ih (fun d hd => hv d (List.mem_cons_of_mem c hd))]

theorem parseQuoted_plain (v : List Char) (rest : List Char)
    (hv : ∀ c ∈ v, ¬ (c = squote ∨ c = bslash)) :
    parseQuoted (v ++ squote :: rest) = some (v, rest) := by
  have h := parseQuoted_escape v rest
  rwa [escape_passwd_spec_id v hv] at h

theorem parseVal_quoted (v2 : List Char) : parseVal (squote :: v2) = parseQuoted v2 := by
  simp [parseVal]

theorem parseVal_bare (c : Char) (v2 : List Char) (hc : ¬ c = squote) :
    parseVal (c :: v2) =
      some ((c :: v2).takeWhile notSpace, (c :: v2).dropWhile notSpace) := by
  simp [parseVal, hc]

theorem parseKV_quoted (key w v rest : List Char) (hk : key ≠ [])
    (hks : ∀ c ∈ key, notSpace c = true) (hq : parseQuoted w = some (v, rest)) :
    parseKV (key ++ ' ' :: '=' :: ' ' :: squote :: w) = some ((key, v), rest) := by
  have ht := takeWhile_append_cons notSpace key ' ' ('=' :: ' ' :: squote :: w) hks (by decide)
  simp only [parseKV, ht.1, ht.2, if_neg hk]
  rw [parseVal_quoted, hq]
  rfl

theorem parseKV_bare_mid (key v rest : List Char) (hk : key ≠ [])
    (hks : ∀ c ∈ key, notSpace c = true) (hv : v ≠ [])
    (hvs : ∀ c ∈ v, notSpace c = true) (hvh : v.head? ≠ some squote) :
    parseKV (key ++ ' ' :: '=' :: ' ' :: (v ++ ' ' :: rest)) = some ((key, v), ' ' :: rest) := by
  have ht := takeWhile_append_cons notSpace key ' ' ('=' :: ' ' :: (v ++ ' ' :: rest)) hks
    (by decide)
  simp only [parseKV, ht.1, ht.2, if_neg hk]
  rcases v with _ | ⟨c, v2⟩
  · exact absurd rfl hv
  · have hcq : ¬ c = squote := by
      intro h
      exact hvh (by rw [h]; rfl)
    rw [List.cons_append, parseVal_bare c (v2 ++ ' ' :: rest) hcq]
    have htv := takeWhile_append_cons notSpace (c :: v2) ' ' rest hvs (by decide)
    rw [List.cons_append] at htv
    rw [htv.1, htv.2]
    rfl

theorem parseKV_bare_last (key v : List Char) (hk : key ≠ [])
    (hks : ∀ c ∈ key, notSpace c = true) (hv : v ≠ [])
    (hvs : ∀ c ∈ v, notSpace c = true) (hvh : v.head? ≠ some squote) :
    parseKV (key ++ ' ' :: '=' :: ' ' :: v) = some ((key, v), []) := by
  have ht := takeWhile_append_cons notSpace key ' ' ('=' :: ' ' :: v) hks (by decide)
  simp only [parseKV, ht.1, ht.2, if_neg hk]
  rcases v with _ | ⟨c, v2⟩
  · exact absurd rfl hv
  · have hcq : ¬ c = squote := by
      intro h
      exact hvh (by rw [h]; rfl)
    rw [parseVal_bare c v2 hcq]
    have htv := takeWhile_all notSpace (c :: v2) hvs
    rw [htv.1, htv.2]
    rfl

theorem parseFieldsGo_succ (n : Nat) (l : List Char) :
    parseFieldsGo (n + 1) l =
      match parseKV l with
      | none => none
      | some kvr =>
        match kvr.2 with
        | [] => some [kvr.1]
        | ' ' :: rest => (parseFieldsGo n rest).map (fun fs => kvr.1 :: fs)
        | _ => none := by
  rw [parseFieldsGo.eq_def]

theorem parseFieldsGo_quoted_mid (n : Nat) (key w v rest : List Char) (hk : key ≠ [])
    (hks : ∀ c ∈ key, notSpace c = true) (hq : parseQuoted w = some (v, ' ' :: rest)) :
    parseFieldsGo (n + 1) (key ++ ' ' :: '=' :: ' ' :: squote :: w) =
      (parseFieldsGo n rest).map (fun fs => (key, v) :: fs) := by
  rw [parseFieldsGo_succ, parseKV_quoted key w v (' ' :: rest) hk hks hq]
  rfl

theorem parseFieldsGo_quoted_last (n : Nat) (key w v : List Char) (hk : key ≠ [])
    (hks : ∀ c ∈ key, notSpace c = true) (hq : parseQuoted w = some (v, [])) :
    parseFieldsGo (n + 1) (key ++ ' ' :: '=' :: ' ' :: squote :: w) = some [(key, v)] := by
  rw [parseFieldsGo_succ, parseKV_quoted key w v [] hk hks hq]

theorem parseFieldsGo_bare_mid (n : Nat) (key v rest : List Char) (hk : key ≠ [])
    (hks : ∀ c ∈ key, notSpace c = true) (hv : v ≠ [])
    (hvs : ∀ c ∈ v, notSpace c = true) (hvh : v.head? ≠ some squote) :
    parseFieldsGo (n + 1) (key ++ ' ' :: '=' :: ' ' :: (v ++ ' ' :: rest)) =
      (parseFieldsGo n rest).map (fun fs => (key, v) :: fs) := by
  rw [parseFieldsGo_succ, parseKV_bare_mid key v rest hk hks hv hvs hvh]
  rfl

theorem parseFieldsGo_bare_last (n : Nat) (key v : List Char) (hk : key ≠ [])
    (hks : ∀ c ∈ key, notSpace c = true) (hv : v ≠ [])
    (hvs : ∀ c ∈ v, notSpace c = true) (hvh : v.head? ≠ some squote) :
    parseFieldsGo (n + 1) (key ++ ' ' :: '=' :: ' ' :: v) = some [(key, v)] := by
  rw [parseFieldsGo_succ, parseKV_bare_last key v hk hks hv hvs hvh]

theorem natDec_eq (k : Nat) :
    natDec k = if k < 10 then [Char.ofNat (48 + k)]
      else natDec (k / 10) ++ [Char.ofNat (48 + k % 10)] := by
  rw [natDec.eq_def]
  by_cases h : k < 10 <;> simp [h]

theorem digitChar_isDigit (d : Nat) (hd : d < 10) : (Char.ofNat (48 + d)).isDigit = true := by
  interval_cases d <;> decide

theorem natDec_digits (k : Nat) : ∀ c ∈ natDec k, c.isDigit = true := by
  induction k using Nat.strong_induction_on with
  | _ k ih =>
    intro c hc
    rw [natDec_eq] at hc
    by_cases hk : k < 10
    · rw [if_pos hk] at hc
      simp only [List.mem_singleton] at hc
      subst hc
      exact digitChar_isDigit k hk
    · rw [if_neg hk] at hc
      rcases List.mem_append.mp hc with h1 | h1
      · exact ih (k / 10) (Nat.div_lt_self (by omega) (by omega)) c h1
      · simp only [List.mem_singleton] at h1
        subst h1
        exact digitChar_isDigit (k % 10) (Nat.mod_lt _ (by omega))

theorem natDec_ne_nil (k : Nat) : natDec k ≠ [] := by
  rw [natDec_eq]
  by_cases hk : k < 10
  · rw [if_pos hk]
    simp
  · rw [if_neg hk]
    simp

theorem natDec_length_le : ∀ p k : Nat, 1 ≤ p → k < 10 ^ p → (natDec k).length ≤ p := by
  intro p
  induction p with
  | zero => intro k h _; omega
  | succ p ih =>
    intro k _ hk
    rw [natDec_eq]
    by_cases h10 : k < 10
    · rw [if_pos h10]
      simp
    · rw [if_neg h10]
      simp only [List.length_append, List.length_cons, List.length_nil]
      have hp : 1 ≤ p := by
        by_contra hp0
        have hp1 : p = 0 := by omega
        rw [hp1, pow_one] at hk
        omega
      have hdiv : k / 10 < 10 ^ p := by
        rw [Nat.div_lt_iff_lt_mul (by omega)]
        calc k < 10 ^ (p + 1) := hk
        _ = 10 ^ p * 10 := by ring
      have := ih (k / 10) hp hdiv
      omega

theorem digit_not_space (c : Char) (h : c.isDigit = true) : notSpace c = true := by
  by_contra hns
  simp only [notSpace, bne_iff_ne, ne_eq, not_not] at hns
  rw [hns] at h
  exact absurd h (by decide)

theorem digit_ne_squote (c : Char) (h : c.isDigit = true) : ¬ c = squote := by
  intro hc
  rw [hc] at h
  exact absurd h (by decide)

theorem digit_ne_bslash (c : Char) (h : c.isDigit = true) : ¬ c = bslash := by
  intro hc
  rw [hc] at h
  exact absurd h (by decide)

theorem intDec_ne_nil (i : Int) : intDec i ≠ [] := by
  unfold intDec
  by_cases h : i < 0
  · rw [if_pos h]
    simp
  · rw [if_neg h]
    exact natDec_ne_nil _

theorem intDec_notSpace (i : Int) : ∀ c ∈ intDec i, notSpace c = true := by
  unfold intDec
  by_cases h : i < 0
  · rw [if_pos h]
    intro c hc
    rcases List.mem_cons.mp hc with h1 | h1
    · rw [h1]
      decide
    · exact digit_not_space c (natDec_digits _ c h1)
  · rw [if_neg h]
    intro c hc
    exact digit_not_space c (natDec_digits _ c hc)

theorem intDec_head_ne_squote (i : Int) : (intDec i).head? ≠ some squote := by
  unfold intDec
  by_cases h : i < 0
  · rw [if_pos h]
    intro hcon
    simp only [List.head?_cons, Option.some.injEq] at hcon
    exact absurd hcon (by decide)
  · rw [if_neg h]
    rcases hcons : natDec i.toNat with _ | ⟨c, t⟩
    · exact absurd hcons (natDec_ne_nil _)
    · intro hcon
      simp only [List.head?_cons, Option.some.injEq] at hcon
      have hcm : c ∈ natDec i.toNat := by
        rw [hcons]
        exact List.mem_cons_self c t
      exact digit_ne_squote c (natDec_digits _ c hcm) hcon

theorem inet_ntoa_chars (a : Nat) : ∀ c ∈ inet_ntoa_dotted a, c.isDigit = true ∨ c = '.' := by
  intro c hc
  unfold inet_ntoa_dotted at hc
  rcases List.mem_append.mp hc with h1 | h1
  · rcases List.mem_append.mp h1 with h2 | h2
    · rcases List.mem_append.mp h2 with h3 | h3
      · exact Or.inl (natDec_digits _ c h3)
      · rcases List.mem_cons.mp h3 with rfl | h4
        · exact Or.inr rfl
        · exact Or.inl (natDec_digits _ c h4)
    · rcases List.mem_cons.mp h2 with rfl | h3
      · exact Or.inr rfl
      · exact Or.inl (natDec_digits _ c h3)
  · rcases List.mem_cons.mp h1 with rfl | h2
    · exact Or.inr rfl
    · exact Or.inl (natDec_digits _ c h2)

theorem inet_ntoa_no_special (a : Nat) :
    ∀ c ∈ inet_ntoa_dotted a, ¬ (c = squote ∨ c = bslash) := by
  intro c hc hor
  rcases inet_ntoa_chars a c hc with hd | hdot
  · rcases hor with h | h
    · exact digit_ne_squote c hd h
    · exact digit_ne_bslash c hd h
  · subst hdot
    rcases hor with h | h <;> exact absurd h (by decide)

theorem inet_ntoa_length_le (a : Nat) : (inet_ntoa_dotted a).length ≤ 15 := by
  unfold inet_ntoa_dotted
  simp only [List.length_append, List.length_cons]
  have hpow : (10 : Nat) ^ 3 = 1000 := by norm_num
  have h1 := natDec_length_le 3 (a / 16777216 % 256) (by omega)
    (by rw [hpow]; exact lt_of_lt_of_le (Nat.mod_lt _ (by omega)) (by omega))
  have h2 := natDec_length_le 3 (a / 65536 % 256) (by omega)
    (by rw [hpow]; exact lt_of_lt_of_le (Nat.mod_lt _ (by omega)) (by omega))
  have h3 := natDec_length_le 3 (a / 256 % 256) (by omega)
    (by rw [hpow]; exact lt_of_lt_of_le (Nat.mod_lt _ (by omega)) (by omega))
  have h4 := natDec_length_le 3 (a % 256) (by omega)
    (by rw [hpow]; exact lt_of_lt_of_le (Nat.mod_lt _ (by omega)) (by omega))
  omega

theorem inet_ntoa_take (a : Nat) :
    (inet_ntoa_dotted a).take IPV4_STR_LEN = inet_ntoa_dotted a :=
  List.take_of_length_le (by have := inet_ntoa_length_le a; simpa [IPV4_STR_LEN] using this)

/-- The dotted text inet_ntoa produces really is a well-formed numeric
IPv4 literal. -/
theorem inet_ntoa_isIPv4 (a : Nat) : isIPv4Lit (inet_ntoa_dotted a) :=
  ⟨a / 16777216 % 256, a / 65536 % 256, a / 256 % 256, a % 256,
    Nat.mod_lt _ (by omega), Nat.mod_lt _ (by omega), Nat.mod_lt _ (by omega),
    Nat.mod_lt _ (by omega), rfl⟩

/-- Parsing the filled host-less template recovers exactly its five
fields, with the password unescaped back to the original secret. -/
theorem template2_fields (port timeout : Int) (u p : List Char)
    (hu : ∀ c ∈ u, ¬ (c = squote ∨ c = bslash)) :
    parseFields (template2_fill (intDec port) u (escape_passwd_spec p) (intDec timeout)) =
      some [("port".toList, intDec port),
        ("dbname".toList, PBS_DATA_SERVICE_STORE_NAME),
        ("user".toList, u),
        ("password".toList, p),
        ("connect_timeout".toList, intDec timeout)] := by
  obtain ⟨k, hk⟩ : ∃ k : Nat,
      (template2_fill (intDec port) u (escape_passwd_spec p) (intDec timeout)).length =
        k + 1 + 1 + 1 + 1 + 1 := by
    refine ⟨(template2_fill (intDec port) u (escape_passwd_spec p) (intDec timeout)).length - 5,
      ?_⟩
    have hge : 7 ≤ (template2_fill (intDec port) u (escape_passwd_spec p)
        (intDec timeout)).length := by
      rw [template2_fill]
      simp only [List.length_append]
      have e : ("port = ".toList).length = 7 := rfl
      omega
    omega
  simp only [parseFields]
  rw [hk]
  have hshape : template2_fill (intDec port) u (escape_passwd_spec p) (intDec timeout) =
    "port".toList ++ ' ' :: '=' :: ' ' :: (intDec port ++ ' ' ::
      ("dbname".toList ++ ' ' :: '=' :: ' ' :: squote :: (PBS_DATA_SERVICE_STORE_NAME ++
        squote :: ' ' :: ("user".toList ++ ' ' :: '=' :: ' ' :: squote :: (u ++
          squote :: ' ' :: ("password".toList ++ ' ' :: '=' :: ' ' :: squote ::
            (escape_passwd_spec p ++ squote :: ' ' :: ("connect_timeout".toList ++
              ' ' :: '=' :: ' ' :: intDec timeout)))))))) := rfl
  rw [hshape]
  rw [parseFieldsGo_bare_mid _ _ _ _ (by decide) (by decide) (intDec_ne_nil port)
    (intDec_notSpace port) (intDec_head_ne_squote port)]
  rw [parseFieldsGo_quoted_mid _ _ _ _ _ (by decide) (by decide)
    (parseQuoted_plain PBS_DATA_SERVICE_STORE_NAME _ (by decide))]
  rw [parseFieldsGo_quoted_mid _ _ _ _ _ (by decide) (by decide)
    (parseQuoted_plain u _ hu)]
  rw [parseFieldsGo_quoted_mid _ _ _ _ _ (by decide) (by decide)
    (parseQuoted_escape p _)]
  rw [parseFieldsGo_bare_last _ _ _ (by decide) (by decide) (intDec_ne_nil timeout)
    (intDec_notSpace timeout) (intDec_head_ne_squote timeout)]
  rfl

/-- Parsing the filled host template recovers exactly its six fields,
hostaddr first. -/
theorem template1_fields (port timeout : Int) (ip u p : List Char)
    (hu : ∀ c ∈ u, ¬ (c = squote ∨ c = bslash))
    (hip : ∀ c ∈ ip, ¬ (c = squote ∨ c = bslash)) :
    parseFields (template1_fill ip (intDec port) u (escape_passwd_spec p) (intDec timeout)) =
      some [("hostaddr".toList, ip),
        ("port".toList, intDec port),
        ("dbname".toList, PBS_DATA_SERVICE_STORE_NAME),
        ("user".toList, u),
        ("password".toList, p),
        ("connect_timeout".toList, intDec timeout)] := by
  obtain ⟨k, hk⟩ : ∃ k : Nat,
      (template1_fill ip (intDec port) u (escape_passwd_spec p) (intDec timeout)).length =
        k + 1 + 1 + 1 + 1 + 1 + 1 := by
    refine ⟨(template1_fill ip (intDec port) u (escape_passwd_spec p)
      (intDec timeout)).length - 6, ?_⟩
    have hge : 12 ≤ (template1_fill ip (intDec port) u (escape_passwd_spec p)
        (intDec timeout)).length := by
      rw [template1_fill]
      simp only [List.length_append]
      have e : ("hostaddr = '".toList).length = 12 := rfl
      omega
    omega
  simp only [parseFields]
  rw [hk]
  have hshape : template1_fill ip (intDec port) u (escape_passwd_spec p) (intDec timeout) =
    "hostaddr".toList ++ ' ' :: '=' :: ' ' :: squote :: (ip ++ squote :: ' ' ::
      ("port".toList ++ ' ' :: '=' :: ' ' :: (intDec port ++ ' ' ::
        ("dbname".toList ++ ' ' :: '=' :: ' ' :: squote :: (PBS_DATA_SERVICE_STORE_NAME ++
          squote :: ' ' :: ("user".toList ++ ' ' :: '=' :: ' ' :: squote :: (u ++
            squote :: ' ' :: ("password".toList ++ ' ' :: '=' :: ' ' :: squote ::
              (escape_passwd_spec p ++ squote :: ' ' :: ("connect_timeout".toList ++
                ' ' :: '=' :: ' ' :: intDec timeout)))))))))) := rfl
  rw [hshape]
  rw [parseFieldsGo_quoted_mid _ _ _ _ _ (by decide) (by decide)
    (parseQuoted_plain ip _ hip)]
  rw [parseFieldsGo_bare_mid _ _ _ _ (by decide) (by decide) (intDec_ne_nil port)
    (intDec_notSpace port) (intDec_head_ne_squote port)]
  rw [parseFieldsGo_quoted_mid _ _ _ _ _ (by decide) (by decide)
    (parseQuoted_plain PBS_DATA_SERVICE_STORE_NAME _ (by decide))]
  rw [parseFieldsGo_quoted_mid _ _ _ _ _ (by decide) (by decide)
    (parseQuoted_plain u _ hu)]
  rw [parseFieldsGo_quoted_mid _ _ _ _ _ (by decide) (by decide)
    (parseQuoted_escape p _)]
  rw [parseFieldsGo_bare_last _ _ _ (by decide) (by decide) (intDec_ne_nil timeout)
    (intDec_notSpace timeout) (intDec_head_ne_squote timeout)]
  rfl

/-- C8: the descriptor built by get_db_connect_string. With no host it is
the host-less template, whose grammar parse has exactly the fields port,
dbname, user, password (unescaping back to the original secret) and
connect_timeout, and no hostaddr field. With a resolvable host it is the
host template, whose parse has hostaddr first, holding the dotted decimal
text of the resolved address (a well-formed numeric IPv4 literal, not the
hostname), followed by the same fields. -/
theorem c8_connect_string_hostaddr (env : ConnStrEnv) (u p : List Char) (timeout : Int)
    (hu1 : env.usr = some u) (hp1 : env.passwd = some p)
    (hu2 : ∀ c ∈ u, ¬ (c = squote ∨ c = bslash)) :
    (get_db_connect_string env none timeout =
        Except.ok (template2_fill (intDec env.port) u (escape_passwd_spec p)
          (intDec timeout)) ∧
      parseFields (template2_fill (intDec env.port) u (escape_passwd_spec p)
          (intDec timeout)) =
        some [("port".toList, intDec env.port),
          ("dbname".toList, PBS_DATA_SERVICE_STORE_NAME),
          ("user".toList, u),
          ("password".toList, p),
          ("connect_timeout".toList, intDec timeout)] ∧
      ∀ kv ∈ [("port".toList, intDec env.port),
          ("dbname".toList, PBS_DATA_SERVICE_STORE_NAME),
          ("user".toList, u),
          ("password".toList, p),
          ("connect_timeout".toList, intDec timeout)], kv.1 ≠ "hostaddr".toList) ∧
    (∀ h : List Char, env.resolve h ≠ 0 →
      get_db_connect_string env (some h) timeout =
          Except.ok (template1_fill (inet_ntoa_dotted (env.resolve h % 4294967296))
            (intDec env.port) u (escape_passwd_spec p) (intDec timeout)) ∧
        parseFields (template1_fill (inet_ntoa_dotted (env.resolve h % 4294967296))
            (intDec env.port) u (escape_passwd_spec p) (intDec timeout)) =
          some [("hostaddr".toList, inet_ntoa_dotted (env.resolve h % 4294967296)),
            ("port".toList, intDec env.port),
            ("dbname".toList, PBS_DATA_SERVICE_STORE_NAME),
            ("user".toList, u),
            ("password".toList, p),
            ("connect_timeout".toList, intDec timeout)] ∧
        isIPv4Lit (inet_ntoa_dotted (env.resolve h % 4294967296))) := by
  have hesc : escape_passwd p (2 * (p.length : Int) + 1) = escape_passwd_spec p :=
    escape_passwd_go_eq_spec p 0 (2 * (p.length : Int) + 1) (by omega)
  refine ⟨⟨?_, template2_fields env.port timeout u p hu2, ?_⟩, ?_⟩
  · simp only [get_db_connect_string, hu1, hp1]
    rw [hesc]
  · intro kv hkv
    simp only [List.mem_cons, List.not_mem_nil, or_false] at hkv
    rcases hkv with rfl | rfl | rfl | rfl | rfl
    · show "port".toList ≠ "hostaddr".toList
      decide
    · show "dbname".toList ≠ "hostaddr".toList
      decide
    · show "user".toList ≠ "hostaddr".toList
      decide
    · show "password".toList ≠ "hostaddr".toList
      decide
    · show "connect_timeout".toList ≠ "hostaddr".toList
      decide
  · intro h hres
    refine ⟨?_, template1_fields env.port timeout _ u p hu2
      (inet_ntoa_no_special (env.resolve h % 4294967296)), inet_ntoa_isIPv4 _⟩
    simp only [get_db_connect_string, hu1, hp1, if_neg hres]
    rw [inet_ntoa_take, hesc]

theorem c8_connect_string_hostaddr_witness :
    ((⟨some "postgres".toList, some "pw".toList, 15007,
        fun _ => 2130706433⟩ : ConnStrEnv).usr = some "postgres".toList) ∧
      (∀ c ∈ "postgres".toList, ¬ (c = squote ∨ c = bslash)) ∧
      ((fun _ : List Char => (2130706433 : Nat)) "dbhost".toList ≠ 0) ∧
      parseFields (template2_fill (intDec (15007 : Int)) "postgres".toList
          (escape_passwd_spec "pw".toList) (intDec (30 : Int))) =
        some [("port".toList, intDec (15007 : Int)),
          ("dbname".toList, PBS_DATA_SERVICE_STORE_NAME),
          ("user".toList, "postgres".toList),
          ("password".toList, "pw".toList),
          ("connect_timeout".toList, intDec (30 : Int))] ∧
      isIPv4Lit (inet_ntoa_dotted (2130706433 % 4294967296)) := by
  have hmain := c8_connect_string_hostaddr
    ⟨some "postgres".toList, some "pw".toList, 15007, fun _ => 2130706433⟩
    "postgres".toList "pw".toList 30 rfl rfl (by decide)
  exact ⟨rfl, by decide, by decide, hmain.1.2.1, (hmain.2 ("dbhost".toList) (by decide)).2.2⟩
